import Mathlib

/-!
Verification of the ManagementDataAnalysis pipeline (shallow embedding).

The embedding translates the repository's Python/pandas code into Lean:
dataframes become lists of structures, pandas cell values that may be
non-numeric text become the `Cell` type, float arithmetic is idealised as
exact rational arithmetic (matters only for "± tolerance" phrasing), and
the one place where a float division can produce a non-finite value
(`配賦率.divide(group_sum)` in `module_haihu.py`, where `x / 0 = inf` for
`x ≠ 0` survives the `fillna(0)` that only replaces the `0/0 = NaN` case)
is modelled as `Option ℚ` with `none` standing for a non-finite float.
Python exceptions become `Except Unit`; `try/except` blocks that report
and skip become total functions returning the skip value.
-/

namespace MDA

/-- A pandas cell that is either a (finite) number or non-numeric text.
`text` stands for any value that `pd.to_numeric(errors := coerce)` cannot
parse as a number (including a missing value). -/
inductive Cell where
  | num (q : ℚ)
  | text (s : String)
deriving DecidableEq

/-- Numeric view of a cell: `some q` for numbers, `none` for text. -/
def cellNum? : Cell → Option ℚ
  | Cell.num q => some q
  | Cell.text _ => none

/-- `pd.to_numeric(errors = coerce).fillna(0)`: non-numeric becomes 0
(module_haihu.py line 39, module_suiihyou.py line 64). -/
def coerceZero : Cell → ℚ
  | Cell.num q => q
  | Cell.text _ => 0

/-- `x.divide(s).fillna(0)` on floats: `0/0 = NaN` is replaced by 0, but
`x/0 = ±inf` for `x ≠ 0` is NOT replaced (`fillna` only fills NaN).
`none` models the non-finite result (module_haihu.py line 77). -/
def divFillna0 (x s : ℚ) : Option ℚ :=
  if s = 0 then (if x = 0 then some 0 else none) else some (x / s)

/-- One row of the processed allocation-ratio table produced by
`preprocess_haihu` (module_haihu.py): 部門コード, 業務量割合, 配賦率,
場所別配賦グループ, 場所別配賦率.  The target-date column is constant and
not modelled. -/
structure HaihuRow where
  dept_code : String
  raw_weight : ℚ
  global_ratio : ℚ
  location_group : String
  group_ratio : Option ℚ
deriving DecidableEq

/-- The fixed location-group mapping `group_map` of module_haihu.py
(lines 42-49): 18 department codes over 4 physical locations. -/
def group_map : List (String × String) :=
  [("H102200", "本店・東京支店"), ("H101100", "本店・東京支店"),
   ("H101210", "本店・東京支店"), ("H101310", "本店・東京支店"),
   ("H104100", "本店・東京支店"), ("H102100", "本店・東京支店"),
   ("H102120", "本店・東京支店"),
   ("S202100", "札幌支店"), ("S201100", "札幌支店"), ("S201200", "札幌支店"),
   ("O502100", "大阪支店"), ("O502200", "大阪支店"),
   ("O501100", "大阪支店"), ("O501200", "大阪支店"),
   ("F602100", "福岡支店"), ("F602200", "福岡支店"),
   ("F601100", "福岡支店"), ("F601200", "福岡支店")]

/-- Step 2+5 of `preprocess_haihu`: melt the wide row to
(部門コード, 業務量割合) pairs, coerce the weight to a number, and keep
only department codes that appear in `group_map` (lines 33-52). -/
def filteredPairs (cols : List (String × Cell)) : List (String × ℚ) :=
  (cols.map (fun p => (p.1, coerceZero p.2))).filter
    (fun p => (group_map.lookup p.1).isSome)

/-- 配賦率 of one row: 0 for every row when the filtered total is 0
(lines 61-66), otherwise weight / total. -/
def globalOf (total w : ℚ) : ℚ :=
  if total = 0 then 0 else w / total

/-- Build one output row: attach 場所別配賦グループ via `group_map`,
compute the per-group sum of 配賦率 (the `groupby(...).transform(sum)` of
line 74) and 場所別配賦率 = 配賦率 / group sum with `fillna(0)`
(line 77). -/
def mkHaihuRow (filtered : List (String × ℚ)) (total : ℚ)
    (p : String × ℚ) : HaihuRow :=
  let grp := (group_map.lookup p.1).getD ""
  let gsum := ((filtered.filter
      (fun q => (group_map.lookup q.1).getD "" == grp)).map
      (fun q => globalOf total q.2)).sum
  { dept_code := p.1
    raw_weight := p.2
    global_ratio := globalOf total p.2
    location_group := grp
    group_ratio := divFillna0 (globalOf total p.2) gsum }

/-- `preprocess_haihu` of module_haihu.py, from the melted, coerced wide
row.  Returns `none` when no column survives the `group_map` filter
(line 54-56; an entirely empty input also yields `none`, line 28-30). -/
def preprocess_haihu (cols : List (String × Cell)) : Option (List HaihuRow) :=
  let filtered := filteredPairs cols
  if filtered = [] then none
  else
    let total := (filtered.map Prod.snd).sum
    some (filtered.map (mkHaihuRow filtered total))

/-- Total of 業務量割合 over the filtered rows (line 59). -/
def totalWeight (cols : List (String × Cell)) : ℚ :=
  ((filteredPairs cols).map Prod.snd).sum

/-!
## The allocation engine (`module_haifu_keisan.py`)

The engine reads only 部門コード, 分類2 and 金額 of each tagged record,
so the record type carries exactly those.  The 金額 column of the merged
frame can hold non-numeric text (see the normaliser section below), and
summing/subtracting such a column raises in pandas; this is the concrete
failure mode modelled by `Except Unit`.
-/

/-- A tagged record as seen by the allocation engine:
部門コード, 分類2, 金額. -/
structure TRec where
  dept_code : String
  class2 : String
  amount : Cell
deriving DecidableEq

/-- An allocated record emitted by the engine (module_haifu_keisan.py
lines 34-39, 59-64, 104-109, 113-118).  `amount` is `Option ℚ` because
金額 = net × 場所別配賦率 inherits a non-finite 場所別配賦率.  `date`
is the 日付 column (the target period, as an abstract integer). -/
structure AllocRecord where
  date : Int
  dept_code : String
  amount : Option ℚ
  class1 : String
  class2 : String
  class3 : String
  account_code : String
  account_name : String
deriving DecidableEq

/-- `series.sum()` followed by use in arithmetic: succeeds with the sum
when every cell is numeric; any text cell makes the surrounding
`sum_shisan - sum_fusai` computation raise (TypeError on str
subtraction / mixed addition), modelled as `Except.error`. -/
def sumCells : List Cell → Except Unit ℚ
  | [] => Except.ok 0
  | c :: cs =>
    match cellNum? c, sumCells cs with
    | some q, Except.ok s => Except.ok (q + s)
    | _, _ => Except.error ()

/-- Net subtotal of one classification pair:
`Σ 金額 where 分類2 == tagA  −  Σ 金額 where 分類2 == tagL`
(module_haifu_keisan.py lines 28-30 and analogues). -/
def pairNet (recs : List TRec) (tagA tagL : String) : Except Unit ℚ :=
  match sumCells ((recs.filter (fun r => r.class2 == tagA)).map
          (fun r => r.amount)),
        sumCells ((recs.filter (fun r => r.class2 == tagL)).map
          (fun r => r.amount)) with
  | Except.ok a, Except.ok b => Except.ok (a - b)
  | _, _ => Except.error ()

/-- One store-wide (全店共通) classification-pair block (lines 26-47 and
49-72; the two blocks are textually identical up to the four string
literals).  The block is skipped when the partition or the ratio table
is empty, a raised exception inside it is caught, reported and skipped
(`try/except`, so the block is total), a zero net emits nothing, and a
non-zero net emits one record per ratio row with
金額 = net × 配賦率. -/
def storeBlock (zen : List TRec) (haihu : List HaihuRow) (td : Int)
    (tagA tagL lit1 lit2 : String) : List AllocRecord :=
  if zen = [] ∨ haihu = [] then []
  else
    match pairNet zen tagA tagL with
    | Except.error _ => []
    | Except.ok net =>
      if net = 0 then []
      else haihu.map (fun h =>
        { date := td, dept_code := h.dept_code
          amount := some (net * h.global_ratio)
          class1 := lit1, class2 := lit2, class3 := ""
          account_code := "", account_name := "" })

/-- The fixed anchor list `target_departments_basho` (line 76). -/
def target_departments_basho : List String :=
  ["H100100", "S200100", "O500100", "F600100"]

/-- Character-level prefix test: `charsPrefix p cs` is true iff `p` is a
prefix of `cs`.  Python's `str.startswith` compares characters, so this
is the faithful reading of `df_haihu['部門コード'].str.startswith(prefix)`
(line 98) with `prefix = dept_code[:3]` (line 97). -/
def charsPrefix : List Char → List Char → Bool
  | [], _ => true
  | _ :: _, [] => false
  | a :: as, b :: bs => a == b && charsPrefix as bs

/-- `dept_code.startswith(anchor[:3])` on the character lists. -/
def startsWithAnchor (anchor dept : String) : Bool :=
  charsPrefix (anchor.data.take 3) dept.data

/-- Processing of one location-common anchor (lines 80-121).  An anchor
with no matching 場所共通 rows is skipped (`continue`).  The two net
subtotals are computed first (and can raise — there is NO `try/except`
in this loop, so the error propagates); then ratio rows are filtered to
the anchor's 3-character prefix, an empty match skips the anchor, and
each non-zero net emits one record per matching ratio row with
金額 = net × 場所別配賦率. -/
def anchorBlock (basho : List TRec) (haihu : List HaihuRow) (td : Int)
    (anchor : String) : Except Unit (List AllocRecord) :=
  let deptRows := basho.filter (fun r => r.dept_code == anchor)
  if deptRows = [] then Except.ok []
  else
    match pairNet deptRows "運転資本(資産)" "運転資本(負債)",
          pairNet deptRows "固定資産(資産)" "固定資産(負債)" with
    | Except.ok netU, Except.ok netK =>
      let targets := haihu.filter
        (fun h => startsWithAnchor anchor h.dept_code)
      if targets = [] then Except.ok []
      else
        Except.ok
          ((if netU = 0 then [] else targets.map (fun h =>
            { date := td, dept_code := h.dept_code
              amount := h.group_ratio.map (fun g => netU * g)
              class1 := "運転資本", class2 := "運転資本_場所共通"
              class3 := "", account_code := "", account_name := "" })) ++
           (if netK = 0 then [] else targets.map (fun h =>
            { date := td, dept_code := h.dept_code
              amount := h.group_ratio.map (fun g => netK * g)
              class1 := "固定資産", class2 := "固定資産_場所共通"
              class3 := "", account_code := "", account_name := "" })))
    | Except.error e, _ => Except.error e
    | _, Except.error e => Except.error e

/-- The `for dept_code in target_departments_basho` loop (lines 80-125):
anchors processed in order, their emissions concatenated; the first
uncaught exception aborts the whole loop (and, having no handler in
`execute_allocation`, the whole call). -/
def anchorsAlloc (basho : List TRec) (haihu : List HaihuRow) (td : Int) :
    List String → Except Unit (List AllocRecord)
  | [] => Except.ok []
  | a :: rest =>
    match anchorBlock basho haihu td a, anchorsAlloc basho haihu td rest with
    | Except.ok x, Except.ok xs => Except.ok (x ++ xs)
    | Except.error e, _ => Except.error e
    | _, Except.error e => Except.error e

/-- `execute_allocation` of module_haifu_keisan.py: the two guarded
store-wide blocks, then the unguarded location-common loop (skipped when
the 場所共通 partition or the ratio table is empty), with all emitted
frames concatenated in order. -/
def execute_allocation (zen basho : List TRec) (haihu : List HaihuRow)
    (td : Int) : Except Unit (List AllocRecord) :=
  let s1 := storeBlock zen haihu td "運転資本(資産)" "運転資本(負債)"
              "運転資本" "運転資本_全店共通"
  let s2 := storeBlock zen haihu td "固定資産(資産)" "固定資産(負債)"
              "固定資産" "固定資産_全店共通"
  if basho = [] ∨ haihu = [] then Except.ok (s1 ++ s2)
  else
    match anchorsAlloc basho haihu td target_departments_basho with
    | Except.error e => Except.error e
    | Except.ok parts => Except.ok (s1 ++ s2 ++ parts)

/-!
## Record normalisers (value/row level)

Only the behaviour the claims are about is modelled: how each
normaliser's 金額 column is produced from the source column.  CSV
byte-level parsing and column-presence fallbacks are glue and are out of
scope.
-/

/-- A canonical normalised record. -/
structure NormRec where
  date : Option Int
  dept_code : String
  dept_name : String
  account_code : String
  account_name : String
  amount : Cell
deriving DecidableEq

/-- Is the record's amount a finite number (and not text)? -/
def isFiniteAmount (c : Cell) : Bool :=
  match c with
  | Cell.num _ => true
  | Cell.text _ => false

/-- The 金額 treatment of module_suiihyou.py line 64:
`pd.to_numeric(errors = coerce).fillna(0)` — always a finite number. -/
def suiihyou_amount (c : Cell) : Cell :=
  Cell.num (coerceZero c)

/-- A source row of the 支払手形 (notes-payable) listing:
依頼部門コード, 依頼部門名, 手形金額. -/
structure TegataSrcRow where
  dept_code : String
  dept_name : String
  amount : Cell
deriving DecidableEq

/-- `preprocess_shiharai_tegata` of module_shiharaitegata.py with all
three required columns present: the columns are renamed, the fixed
日付/勘定科目コード/勘定科目名 columns are added, and 手形金額 is carried
into 金額 UNCHANGED — the module never applies a numeric coercion
(lines 35-86). -/
def preprocess_shiharai_tegata (td : Int) (rows : List TegataSrcRow) :
    List NormRec :=
  rows.map (fun r =>
    { date := some td, dept_code := r.dept_code, dept_name := r.dept_name
      account_code := "BS2003", account_name := "★支払手形"
      amount := r.amount })

/-- A source row of the 与信残高表 (credit-balance) export:
計上部門コード (may be missing), 計上部門名, 受取手形. -/
structure YoshinSrcRow where
  dept_code : Option String
  dept_name : String
  amount : Cell
deriving DecidableEq

/-- `preprocess_yoshin` of module_yoshinzandaka.py with the required
columns present: rows with a missing 計上部門コード are dropped
(line 71), columns are renamed and fixed columns added, and 受取手形 is
carried into 金額 UNCHANGED — no numeric coercion (lines 70-89). -/
def preprocess_yoshin (d : Option Int) (rows : List YoshinSrcRow) :
    List NormRec :=
  (rows.filter (fun r => r.dept_code.isSome)).map (fun r =>
    { date := d, dept_code := r.dept_code.getD "", dept_name := r.dept_name
      account_code := "BS1013", account_name := "★受取手形"
      amount := r.amount })

/-!
## app.py: partitioning by 場所 and the export decision
-/

/-- A merged tagged record as partitioned by app.py: the 場所 column is
`none` when the left join against the location table found no match
(pandas leaves NaN, which compares unequal to every string). -/
structure AppRec where
  dept_code : String
  location : Option String
  amount : Cell
deriving DecidableEq

/-- `merged_df['場所'] == '全店共通'` (app.py line 198). -/
def isZenKyoutuu (r : AppRec) : Bool :=
  r.location == some "全店共通"

/-- `merged_df['場所'] == '場所共通'` (app.py line 199). -/
def isBashoKyoutuu (r : AppRec) : Bool :=
  r.location == some "場所共通"

/-- The 全店共通 partition (app.py line 201). -/
def splitZen (l : List AppRec) : List AppRec :=
  l.filter isZenKyoutuu

/-- The 場所共通 partition (app.py line 202). -/
def splitBasho (l : List AppRec) : List AppRec :=
  l.filter isBashoKyoutuu

/-- The normal partition: `~is_zen_kyoutuu & ~is_basho_kyoutuu`
(app.py line 206). -/
def splitMain (l : List AppRec) : List AppRec :=
  l.filter (fun r => !isZenKyoutuu r && !isBashoKyoutuu r)

/-- The per-stage outputs of app.py's five normaliser stages, as they
stand right before the merge: `none` models a stage whose preprocess
function returned `None` (failed), `some rows` a returned frame (which
may have zero rows, e.g. the notes-payable module returns an EMPTY frame
— not `None` — on error, and the trial-balance frame may become empty
after the target-date filter). -/
structure StageOutputs where
  suiihyou : Option (List NormRec)
  yoshin : Option (List NormRec)
  motocho1 : Option (List NormRec)
  motocho2 : Option (List NormRec)
  zaiko : Option (List NormRec)
  tegata : Option (List NormRec)
deriving DecidableEq

/-- The derived 特販部在庫 frame (app.py lines 107-140): computed only
when the 491701 ledger frame and the inventory frame are both present
and non-empty; its computation is wrapped in `try/except`, so a
non-numeric cell in either source makes it skip (empty contribution)
rather than abort. -/
def tokuhanFrames (sumBs1043 : ℚ) (m2 z : List NormRec) :
    List (List NormRec) :=
  match m2.head? with
  | none => []
  | some r =>
    match cellNum? r.amount, sumCells (z.map (fun x => x.amount)) with
    | some mv, Except.ok zt =>
      [[{ date := none, dept_code := "H102200", dept_name := "本店特販部"
          account_code := "BS1043", account_name := "★商品"
          amount := Cell.num (sumBs1043 - mv - zt) }]]
    | _, _ => []

/-- `all_dataframes` as accumulated by app.py lines 38-152, in source
order and with the source's append conditions: 推移表/与信/在庫/支払手形
are appended whenever the stage returned a frame (`is not None`, even a
zero-row one); the two 元帳 frames only when non-empty; the 特販部在庫
frame under its compound condition. -/
def allDataframes (sumBs1043 : ℚ) (s : StageOutputs) :
    List (List NormRec) :=
  (match s.suiihyou with | some df => [df] | none => []) ++
  (match s.yoshin with | some df => [df] | none => []) ++
  (match s.motocho1 with
   | some df => if df = [] then [] else [df]
   | none => []) ++
  (match s.motocho2 with
   | some df => if df = [] then [] else [df]
   | none => []) ++
  (match s.zaiko with | some df => [df] | none => []) ++
  (match s.motocho2, s.zaiko with
   | some m2, some z =>
     if m2 = [] ∨ z = [] then [] else tokuhanFrames sumBs1043 m2 z
   | _, _ => []) ++
  (match s.tegata with | some df => [df] | none => [])

/-- app.py line 155: the final CSV is written iff `all_dataframes` is
non-empty (the `if not all_dataframes` guard is the ONLY thing standing
between the run and `to_csv`). -/
def exportsCsv (sumBs1043 : ℚ) (s : StageOutputs) : Bool :=
  !(allDataframes sumBs1043 s).isEmpty

/-- Total number of rows produced by all stages. -/
def totalStageRows (sumBs1043 : ℚ) (s : StageOutputs) : Nat :=
  ((allDataframes sumBs1043 s).map List.length).sum

/-!
## module_motocho.py: "latest by date then by row" selection
-/

/-- A ledger row as `_get_latest_record` sees it after the coercions of
lines 16-17: 計上日 (`none` = NaT from a failed `to_datetime`), 行
(`none` = NaN from a failed `to_numeric`), plus the identifying payload
columns. -/
structure LedgerRow where
  date : Option Int
  rowNum : Option ℚ
  dept_code : String
  dept_name : String
  amount : Cell
deriving DecidableEq

/-- Rows surviving `dropna(subset = [計上日, 行])` (line 20). -/
def validLedger (r : LedgerRow) : Bool :=
  r.date.isSome && r.rowNum.isSome

/-- The sort key (計上日, 行); only applied to valid rows. -/
def ledgerKey (r : LedgerRow) : Int × ℚ :=
  (r.date.getD 0, r.rowNum.getD 0)

/-- `a` sorts strictly before `b` in the descending (date, row)
lexicographic order. -/
def keyGtB (a b : Int × ℚ) : Bool :=
  decide (b.1 < a.1 ∨ (b.1 = a.1 ∧ b.2 < a.2))

/-- `a` sorts before or with `b` in the descending order. -/
def keyGeB (a b : Int × ℚ) : Bool :=
  decide (b.1 < a.1 ∨ (b.1 = a.1 ∧ b.2 ≤ a.2))

/-- Stable insertion (descending): a new element is placed before the
first element it is ≥, so equal keys keep their relative order. -/
def insertDesc (r : LedgerRow) : List LedgerRow → List LedgerRow
  | [] => [r]
  | x :: xs =>
    if keyGeB (ledgerKey r) (ledgerKey x) then r :: x :: xs
    else x :: insertDesc r xs

/-- The stable descending sort of
`sort_values(by = [計上日, 行], ascending = [False, False])` — a
multi-column pandas sort goes through `np.lexsort`, which is stable. -/
def sortLedgerDesc (l : List LedgerRow) : List LedgerRow :=
  l.foldr insertDesc []

/-- `_get_latest_record` (module_motocho.py lines 7-29): drop rows whose
date or row number failed to parse, sort descending by (計上日, 行),
keep the first row (`head(1)`). -/
def getLatestRecord (l : List LedgerRow) : List LedgerRow :=
  (sortLedgerDesc (l.filter validLedger)).take 1

/-!
## Specification-side definitions

These follow the CLAIMS' words (not the source) and exist to be compared
with the code-side definitions above in refinement theorems.
-/

/-- Claim-side sum: "sum of amounts with class2 == tag". -/
def sumNum (recs : List TRec) (tag : String) : ℚ :=
  ((recs.filter (fun r => r.class2 == tag)).map
    (fun r => (cellNum? r.amount).getD 0)).sum

/-- Claim C2's description of one store-wide pair: `net` = asset sum
minus liability sum; if `net ≠ 0`, exactly one record per ratio row with
`amount = net * global_ratio` and the pair's fixed literals; if
`net = 0`, no records. -/
def storeAllocFromClaim (zen : List TRec) (haihu : List HaihuRow)
    (td : Int) (tagA tagL lit1 lit2 : String) : List AllocRecord :=
  let net := sumNum zen tagA - sumNum zen tagL
  if net = 0 then []
  else haihu.map (fun h =>
    { date := td, dept_code := h.dept_code
      amount := some (net * h.global_ratio)
      class1 := lit1, class2 := lit2, class3 := ""
      account_code := "", account_name := "" })

/-- Claim C3's description of one anchor: skip anchors with no matching
location-common rows; otherwise, for each of the two non-zero nets, emit
one record per ratio row whose dept_code starts with the anchor's
3-character prefix, with `amount = net * group_ratio`. -/
def anchorAllocFromClaim (basho : List TRec) (haihu : List HaihuRow)
    (td : Int) (anchor : String) : List AllocRecord :=
  let rows := basho.filter (fun r => r.dept_code == anchor)
  if rows = [] then []
  else
    let netU := sumNum rows "運転資本(資産)" - sumNum rows "運転資本(負債)"
    let netK := sumNum rows "固定資産(資産)" - sumNum rows "固定資産(負債)"
    let targets := haihu.filter
      (fun h => startsWithAnchor anchor h.dept_code)
    (if netU = 0 then [] else targets.map (fun h =>
      { date := td, dept_code := h.dept_code
        amount := h.group_ratio.map (fun g => netU * g)
        class1 := "運転資本", class2 := "運転資本_場所共通"
        class3 := "", account_code := "", account_name := "" })) ++
    (if netK = 0 then [] else targets.map (fun h =>
      { date := td, dept_code := h.dept_code
        amount := h.group_ratio.map (fun g => netK * g)
        class1 := "固定資産", class2 := "固定資産_場所共通"
        class3 := "", account_code := "", account_name := "" }))

/-- Claim C9's description of the kept ledger record: the maximum of the
total descending (date, row) order, with ties among equal keys broken by
input order — i.e. the FIRST row in input order whose key is maximal. -/
def firstMaxKey : List LedgerRow → Option LedgerRow
  | [] => none
  | r :: rs =>
    match firstMaxKey rs with
    | none => some r
    | some m => if keyGtB (ledgerKey m) (ledgerKey r) then some m else some r

/-- Every record's 金額 in a TRec list is numeric. -/
def allNumTR (recs : List TRec) : Prop :=
  ∀ r ∈ recs, (cellNum? r.amount).isSome

/-!
## Helper lemmas
-/

lemma sumCells_ok (l : List Cell) (h : ∀ c ∈ l, (cellNum? c).isSome) :
    sumCells l = Except.ok ((l.map (fun c => (cellNum? c).getD 0)).sum) := by
  induction l with
  | nil => simp [sumCells]
  | cons c cs ih =>
    have hc := h c (by simp)
    have hcs : ∀ x ∈ cs, (cellNum? x).isSome := fun x hx => h x (by simp [hx])
    obtain ⟨q, hq⟩ := Option.isSome_iff_exists.mp hc
    simp [sumCells, hq, ih hcs]

lemma pairNet_ok (recs : List TRec) (tagA tagL : String)
    (h : allNumTR recs) :
    pairNet recs tagA tagL =
      Except.ok (sumNum recs tagA - sumNum recs tagL) := by
  have hsel : ∀ tag : String,
      sumCells ((recs.filter (fun r => r.class2 == tag)).map
          (fun r => r.amount)) = Except.ok (sumNum recs tag) := by
    intro tag
    have hmem : ∀ c ∈ (recs.filter (fun r => r.class2 == tag)).map
        (fun r => r.amount), (cellNum? c).isSome := by
      intro c hc
      simp only [List.mem_map, List.mem_filter] at hc
      obtain ⟨r, ⟨hr, _⟩, rfl⟩ := hc
      exact h r hr
    rw [sumCells_ok _ hmem, sumNum, List.map_map]
    rfl
  rw [pairNet, hsel tagA, hsel tagL]

lemma storeBlock_eq_claim (zen : List TRec) (haihu : List HaihuRow)
    (td : Int) (tagA tagL lit1 lit2 : String) (h : allNumTR zen) :
    storeBlock zen haihu td tagA tagL lit1 lit2 =
      storeAllocFromClaim zen haihu td tagA tagL lit1 lit2 := by
  rw [storeBlock, storeAllocFromClaim, pairNet_ok zen tagA tagL h]
  by_cases hz : zen = []
  · subst hz
    simp [sumNum]
  · by_cases hh : haihu = []
    · subst hh
      simp [hz]
    · simp [hz, hh]

lemma anchorBlock_ok_claim (basho : List TRec) (haihu : List HaihuRow)
    (td : Int) (a : String) (h : allNumTR basho) :
    anchorBlock basho haihu td a =
      Except.ok (anchorAllocFromClaim basho haihu td a) := by
  have hsub : allNumTR (basho.filter (fun r => r.dept_code == a)) :=
    fun r hr => h r (List.mem_of_mem_filter hr)
  rw [anchorBlock, anchorAllocFromClaim,
      pairNet_ok _ _ _ hsub, pairNet_ok _ _ _ hsub]
  by_cases hd : basho.filter (fun r => r.dept_code == a) = []
  · simp [hd]
  · by_cases ht : haihu.filter (fun h2 => startsWithAnchor a h2.dept_code) = []
    · simp [hd, ht]
    · simp [hd, ht]

lemma anchorsAlloc_ok (basho : List TRec) (haihu : List HaihuRow)
    (td : Int) (h : allNumTR basho) (anchors : List String) :
    anchorsAlloc basho haihu td anchors =
      Except.ok ((anchors.map (anchorAllocFromClaim basho haihu td)).flatten) := by
  induction anchors with
  | nil => simp [anchorsAlloc]
  | cons a rest ih =>
    rw [anchorsAlloc, anchorBlock_ok_claim basho haihu td a h, ih]
    simp

/-!
## Claim theorems: the allocation engine
-/

/-- C2.  For every store-common input partition and non-empty ratio
table (with the 金額 column numeric, the normal case), the store-wide
half of `execute_allocation` behaves exactly as the claim describes:
for each of the two classification pairs it computes
net = Σ asset − Σ liability and emits, when net ≠ 0, exactly one record
per ratio-table row with 金額 = net × 配賦率 and the pair's fixed
class1/class2 literals, and nothing when net = 0.  The witness
instantiates Scenario A (asset 1000, liability 200, ratios 0.6/0.4 →
exactly two rows, 480 and 320). -/
theorem store_allocation_matches_claim
    (zen : List TRec) (haihu : List HaihuRow) (td : Int)
    (h : allNumTR zen) (_hh : haihu ≠ []) :
    execute_allocation zen [] haihu td =
      Except.ok
        (storeAllocFromClaim zen haihu td
            "運転資本(資産)" "運転資本(負債)" "運転資本" "運転資本_全店共通" ++
         storeAllocFromClaim zen haihu td
            "固定資産(資産)" "固定資産(負債)" "固定資産" "固定資産_全店共通") := by
  rw [execute_allocation]
  simp only [storeBlock_eq_claim _ _ _ _ _ _ _ h]
  simp

/-- Scenario A of the spec:
全店共通 working-capital asset 1000 and liability 200 with two ratio
rows 0.6/0.4 yield exactly the two rows 480 and 320. -/
def zenScenA : List TRec :=
  [{ dept_code := "A900000", class2 := "運転資本(資産)", amount := Cell.num 1000 },
   { dept_code := "A900000", class2 := "運転資本(負債)", amount := Cell.num 200 }]

/-- Ratio table with two departments and global ratios 0.6 / 0.4. -/
def haihuScenA : List HaihuRow :=
  [{ dept_code := "H102200", raw_weight := 6, global_ratio := 3/5,
     location_group := "本店・東京支店", group_ratio := some 1 },
   { dept_code := "S202100", raw_weight := 4, global_ratio := 2/5,
     location_group := "札幌支店", group_ratio := some 1 }]

theorem store_allocation_matches_claim_witness :
    execute_allocation zenScenA [] haihuScenA 0 =
      Except.ok
        [{ date := 0, dept_code := "H102200", amount := some 480
           class1 := "運転資本", class2 := "運転資本_全店共通", class3 := ""
           account_code := "", account_name := "" },
         { date := 0, dept_code := "S202100", amount := some 320
           class1 := "運転資本", class2 := "運転資本_全店共通", class3 := ""
           account_code := "", account_name := "" }] := by
  rw [store_allocation_matches_claim zenScenA haihuScenA 0
      (by intro r hr; fin_cases hr <;> simp [cellNum?]) (by simp [haihuScenA])]
  simp [storeAllocFromClaim, sumNum, cellNum?, zenScenA, haihuScenA]
  norm_num

/-- C3.  For every location-common input partition (numeric amounts) and
non-empty ratio table, `execute_allocation` processes the four fixed
anchors exactly as the claim describes: an anchor with no matching rows
is skipped with no error, and otherwise each non-zero net subtotal emits
one record per ratio row whose 部門コード starts with the anchor's
3-character prefix, with 金額 = net × 場所別配賦率.  The witness
instantiates Scenario B (anchor H100100, fixed-asset 5000/1000,
group ratios 0.7/0.3 → rows 2800 and 1200). -/
theorem location_allocation_matches_claim
    (basho : List TRec) (haihu : List HaihuRow) (td : Int)
    (h : allNumTR basho) (hh : haihu ≠ []) :
    execute_allocation [] basho haihu td =
      Except.ok
        ((target_departments_basho.map
            (anchorAllocFromClaim basho haihu td)).flatten) := by
  rw [execute_allocation]
  by_cases hb : basho = []
  · subst hb
    simp [storeBlock, anchorAllocFromClaim, target_departments_basho]
  · rw [anchorsAlloc_ok basho haihu td h]
    simp [hb, hh, storeBlock]

/-- Scenario B of the spec: 場所共通 rows for anchor H100100. -/
def bashoScenB : List TRec :=
  [{ dept_code := "H100100", class2 := "固定資産(資産)", amount := Cell.num 5000 },
   { dept_code := "H100100", class2 := "固定資産(負債)", amount := Cell.num 1000 }]

/-- Ratio table with two H10-prefixed departments, group ratios 0.7/0.3. -/
def haihuScenB : List HaihuRow :=
  [{ dept_code := "H101100", raw_weight := 7, global_ratio := 7/100,
     location_group := "本店・東京支店", group_ratio := some (7/10) },
   { dept_code := "H102200", raw_weight := 3, global_ratio := 3/100,
     location_group := "本店・東京支店", group_ratio := some (3/10) }]

theorem location_allocation_matches_claim_witness :
    execute_allocation [] bashoScenB haihuScenB 0 =
      Except.ok
        [{ date := 0, dept_code := "H101100", amount := some 2800
           class1 := "固定資産", class2 := "固定資産_場所共通", class3 := ""
           account_code := "", account_name := "" },
         { date := 0, dept_code := "H102200", amount := some 1200
           class1 := "固定資産", class2 := "固定資産_場所共通", class3 := ""
           account_code := "", account_name := "" }] := by
  rw [location_allocation_matches_claim bashoScenB haihuScenB 0
      (by intro r hr; fin_cases hr <;> simp [cellNum?]) (by simp [haihuScenB])]
  simp [anchorAllocFromClaim, sumNum, cellNum?, bashoScenB, haihuScenB,
        target_departments_basho, startsWithAnchor, charsPrefix]
  norm_num

/-- Does an `Except` computation finish without raising? -/
def exceptIsOk {ε α : Type} : Except ε α → Bool
  | Except.ok _ => true
  | Except.error _ => false

/-- C4 (amended).  Only the two store-wide pair computations are
independently guarded: whether `execute_allocation` raises is completely
independent of the store-common partition (a store-pair failure is
caught and skipped), whereas the location-common loop has no handler —
see the counterexample theorem for a location-pair failure aborting the
whole call. -/
theorem only_store_pairs_guarded (zen alt basho : List TRec)
    (haihu : List HaihuRow) (td : Int) :
    exceptIsOk (execute_allocation zen basho haihu td) =
      exceptIsOk (execute_allocation alt basho haihu td) := by
  rw [execute_allocation, execute_allocation]
  by_cases hb : basho = [] ∨ haihu = []
  · simp [hb, exceptIsOk]
  · simp only [if_neg hb]
    cases anchorsAlloc basho haihu td target_departments_basho <;>
      simp [exceptIsOk]

/-- 場所共通 rows for two anchors, one of which (H100100) carries a
non-numeric 金額 cell (the notes-payable and credit-balance normalisers
pass text through, so this reaches the engine). -/
def bashoMixedC4 : List TRec :=
  [{ dept_code := "H100100", class2 := "運転資本(資産)", amount := Cell.text "未確定" },
   { dept_code := "S200100", class2 := "固定資産(資産)", amount := Cell.num 100 }]

/-- The same partition without the poisoned H100100 row. -/
def bashoGoodC4 : List TRec :=
  [{ dept_code := "S200100", class2 := "固定資産(資産)", amount := Cell.num 100 }]

/-- A ratio row matching the S200100 anchor's prefix. -/
def haihuSapporo : List HaihuRow :=
  [{ dept_code := "S201100", raw_weight := 1, global_ratio := 1,
     location_group := "札幌支店", group_ratio := some 1 }]

/-- C4 counterexample.  A failure inside the H100100 anchor's
working-capital pair aborts the whole engine call with an error — the
S200100 anchor's allocation (which succeeds when the poisoned row is
absent) is lost, contradicting "never aborts the processing of the
remaining pairs or the remaining location anchors". -/
theorem location_pair_failure_aborts_cex :
    execute_allocation [] bashoMixedC4 haihuSapporo 0 = Except.error () ∧
    execute_allocation [] bashoGoodC4 haihuSapporo 0 =
      Except.ok
        [{ date := 0, dept_code := "S201100", amount := some 100
           class1 := "固定資産", class2 := "固定資産_場所共通", class3 := ""
           account_code := "", account_name := "" }] := by
  constructor
  · simp [execute_allocation, storeBlock, anchorsAlloc, anchorBlock,
          pairNet, sumCells, cellNum?, target_departments_basho,
          bashoMixedC4, haihuSapporo, startsWithAnchor, charsPrefix]
  · simp [execute_allocation, storeBlock, anchorsAlloc, anchorBlock,
          pairNet, sumCells, cellNum?, target_departments_basho,
          bashoGoodC4, haihuSapporo, startsWithAnchor, charsPrefix]

/-!
## Claim theorems: partitioning (app.py)
-/

lemma zen_basho_mutex (r : AppRec) :
    ¬(isZenKyoutuu r = true ∧ isBashoKyoutuu r = true) := by
  rintro ⟨h1, h2⟩
  simp only [isZenKyoutuu, beq_iff_eq] at h1
  simp only [isBashoKyoutuu, beq_iff_eq] at h2
  rw [h1] at h2
  simp at h2

lemma length_tri_split (l : List AppRec) :
    (splitZen l).length + (splitBasho l).length + (splitMain l).length
      = l.length := by
  induction l with
  | nil => rfl
  | cons r t ih =>
    simp only [splitZen, splitBasho, splitMain, List.filter_cons] at ih ⊢
    cases hz : isZenKyoutuu r <;> cases hb : isBashoKyoutuu r
    · simp only [hz, hb, Bool.not_false, Bool.and_self, if_true, if_false,
        Bool.false_eq_true, List.length_cons]
      omega
    · simp only [hz, hb, Bool.not_false, Bool.not_true, Bool.and_false,
        if_true, if_false, Bool.false_eq_true, List.length_cons]
      omega
    · simp only [hz, hb, Bool.not_false, Bool.not_true, Bool.false_and,
        if_true, if_false, Bool.false_eq_true, List.length_cons]
      omega
    · exact absurd ⟨hz, hb⟩ (zen_basho_mutex r)

/-- C6.  Partitioning by 場所 is a true 3-way partition: the three
partitions are pairwise disjoint predicates, each merged record lands in
exactly one of them, and the three row counts sum to the input count. -/
theorem partition_complete (l : List AppRec) :
    ((splitZen l).length + (splitBasho l).length + (splitMain l).length
        = l.length) ∧
    ∀ r ∈ l,
      (r ∈ splitZen l ∧ r ∉ splitBasho l ∧ r ∉ splitMain l) ∨
      (r ∉ splitZen l ∧ r ∈ splitBasho l ∧ r ∉ splitMain l) ∨
      (r ∉ splitZen l ∧ r ∉ splitBasho l ∧ r ∈ splitMain l) := by
  refine ⟨length_tri_split l, ?_⟩
  intro r hr
  cases hz : isZenKyoutuu r <;> cases hb : isBashoKyoutuu r
  · right; right
    refine ⟨?_, ?_, ?_⟩ <;>
      simp [splitZen, splitBasho, splitMain, List.mem_filter, hr, hz, hb]
  · right; left
    refine ⟨?_, ?_, ?_⟩ <;>
      simp [splitZen, splitBasho, splitMain, List.mem_filter, hr, hz, hb]
  · left
    refine ⟨?_, ?_, ?_⟩ <;>
      simp [splitZen, splitBasho, splitMain, List.mem_filter, hr, hz, hb]
  · exact absurd ⟨hz, hb⟩ (zen_basho_mutex r)

/-!
## Claim theorems: normaliser amounts (C7)
-/

/-- C7 counterexample.  A non-numeric 手形金額 cell flows through the
notes-payable normaliser untouched, and a non-numeric 受取手形 cell
flows through the credit-balance normaliser untouched: the produced
records carry text amounts, not 0 — the "non-numeric coerces to 0"
invariant fails for these two normalisers. -/
theorem normaliser_amount_not_coerced_cex :
    (preprocess_shiharai_tegata 0
        [{ dept_code := "D1", dept_name := "N1",
           amount := Cell.text "未確定" }]).map (fun r => r.amount) =
      [Cell.text "未確定"] ∧
    (preprocess_yoshin (some 0)
        [{ dept_code := some "D2", dept_name := "N2",
           amount := Cell.text "保留" }]).map (fun r => r.amount) =
      [Cell.text "保留"] := by
  constructor <;> rfl

/-- C7 (amended).  The trial-balance normaliser really does coerce:
its 金額 is always a finite number and non-numeric input becomes 0.
But the notes-payable and credit-balance normalisers pass the source
amount cell through unchanged (they only rename the column), so
non-numeric values enter the merged record set as text. -/
theorem normaliser_amount_amended :
    (∀ c : Cell, isFiniteAmount (suiihyou_amount c) = true) ∧
    (∀ s : String, suiihyou_amount (Cell.text s) = Cell.num 0) ∧
    (∀ (td : Int) (rows : List TegataSrcRow),
      (preprocess_shiharai_tegata td rows).map (fun r => r.amount) =
        rows.map (fun r => r.amount)) ∧
    (∀ (d : Option Int) (rows : List YoshinSrcRow),
      (preprocess_yoshin d rows).map (fun r => r.amount) =
        (rows.filter (fun r => r.dept_code.isSome)).map
          (fun r => r.amount)) := by
  refine ⟨fun c => rfl, fun s => rfl, fun td rows => ?_, fun d rows => ?_⟩
  · simp [preprocess_shiharai_tegata, List.map_map]
  · simp [preprocess_yoshin, List.map_map]

/-!
## Claim theorems: export decision (C8)
-/

/-- No stage handed app.py a frame to merge: the four
appended-when-present stages returned `None` and the two
appended-when-non-empty ledger stages returned `None` or an empty
frame. -/
def noFrameAppended (s : StageOutputs) : Prop :=
  s.suiihyou = none ∧ s.yoshin = none ∧
  (s.motocho1 = none ∨ s.motocho1 = some []) ∧
  (s.motocho2 = none ∨ s.motocho2 = some []) ∧
  s.zaiko = none ∧ s.tegata = none

/-- C8 counterexample.  A run in which the only stage product is the
notes-payable normaliser's EMPTY error frame (it returns an empty frame,
not `None`, on failure) has zero rows in every stage, yet
`all_dataframes` is non-empty and the run still writes the CSV — the
claimed "no rows produced → export skipped" fails. -/
theorem empty_rows_still_exported_cex :
    (totalStageRows 0
        { suiihyou := none, yoshin := none, motocho1 := none,
          motocho2 := none, zaiko := none, tegata := some [] } = 0) ∧
    (exportsCsv 0
        { suiihyou := none, yoshin := none, motocho1 := none,
          motocho2 := none, zaiko := none, tegata := some [] } = true) := by
  constructor <;> rfl

/-- C8 (amended).  The export is skipped when no stage produced a frame
at all (every stage failed with `None`, or, for the two ledger frames,
returned nothing or an empty frame); and whenever the export is skipped
there were indeed zero rows.  The converse direction of the original
claim is false: zero rows do not imply a skipped export (see the
counterexample). -/
theorem export_skip_amended (sb : ℚ) (s : StageOutputs) :
    (noFrameAppended s → exportsCsv sb s = false) ∧
    (exportsCsv sb s = false → totalStageRows sb s = 0) := by
  constructor
  · rintro ⟨h1, h2, h3, h4, h5, h6⟩
    rcases h3 with h3 | h3 <;> rcases h4 with h4 | h4 <;>
      simp [exportsCsv, allDataframes, h1, h2, h3, h4, h5, h6]
  · intro h
    have h2 : allDataframes sb s = [] := by
      simpa [exportsCsv] using h
    simp [totalStageRows, h2]

theorem export_skip_amended_witness :
    exportsCsv 0
        { suiihyou := none, yoshin := none, motocho1 := none,
          motocho2 := some [], zaiko := none, tegata := none } = false ∧
    totalStageRows 0
        { suiihyou := none, yoshin := none, motocho1 := none,
          motocho2 := some [], zaiko := none, tegata := none } = 0 := by
  have h := export_skip_amended 0
      { suiihyou := none, yoshin := none, motocho1 := none,
        motocho2 := some [], zaiko := none, tegata := none }
  have hskip := h.1 ⟨rfl, rfl, Or.inl rfl, Or.inr rfl, rfl, rfl⟩
  exact ⟨hskip, h.2 hskip⟩

/-!
## Claim theorems: ledger record selection (C9)
-/

lemma keyGeB_eq_not_gt (a b : Int × ℚ) : keyGeB a b = !keyGtB b a := by
  by_cases h1 : b.1 < a.1
  · have h2 : ¬a.1 < b.1 := lt_asymm h1
    have h3 : b.1 ≠ a.1 := ne_of_lt h1
    simp [keyGeB, keyGtB, h1, h2, h3, ne_of_gt h1]
  · by_cases he : b.1 = a.1
    · simp only [keyGeB, keyGtB, he, lt_self_iff_false, false_or,
        true_and, eq_self_iff_true]
      rw [← decide_not, decide_eq_decide]
      exact not_lt.symm
    · have h4 : a.1 < b.1 :=
        lt_of_le_of_ne (not_lt.mp h1) (fun h => he h.symm)
      simp [keyGeB, keyGtB, h1, he, h4]

lemma head_insertDesc (r : LedgerRow) (s : List LedgerRow) :
    (insertDesc r s).head? =
      match s with
      | [] => some r
      | x :: _ =>
        if keyGeB (ledgerKey r) (ledgerKey x) then some r else some x := by
  cases s with
  | nil => rfl
  | cons x xs =>
    rw [insertDesc]
    by_cases h : keyGeB (ledgerKey r) (ledgerKey x) = true
    · simp [h]
    · simp [h]

lemma head_sortDesc (l : List LedgerRow) :
    (sortLedgerDesc l).head? = firstMaxKey l := by
  induction l with
  | nil => rfl
  | cons r rs ih =>
    rw [sortLedgerDesc, List.foldr_cons, head_insertDesc, firstMaxKey]
    rw [sortLedgerDesc] at ih
    cases hs : List.foldr insertDesc [] rs with
    | nil =>
      rw [hs] at ih
      simp only [List.head?] at ih
      rw [← ih]
    | cons x xs =>
      rw [hs] at ih
      simp only [List.head?] at ih
      rw [← ih]
      dsimp only
      rw [keyGeB_eq_not_gt]
      cases hgt : keyGtB (ledgerKey x) (ledgerKey r) <;> simp [hgt]

lemma take_one_head (s : List LedgerRow) : s.take 1 = s.head?.toList := by
  cases s <;> rfl

/-- C9.  `_get_latest_record` is exactly "first row in input order among
those with the maximal (計上日, 行) key": the multi-column pandas sort it
uses goes through the stable `np.lexsort`, so ties among equal keys are
broken by input order, and the resulting selection is deterministic
under duplicate keys.  The second conjunct records that the descending
key comparison is total. -/
theorem latest_record_first_max :
    (∀ l : List LedgerRow,
      getLatestRecord l = (firstMaxKey (l.filter validLedger)).toList) ∧
    (∀ a b : Int × ℚ, keyGeB a b = true ∨ keyGeB b a = true) := by
  constructor
  · intro l
    rw [getLatestRecord, take_one_head, head_sortDesc]
  · intro a b
    rcases lt_trichotomy a.1 b.1 with h | h | h
    · right
      simp [keyGeB, h]
    · rcases le_total a.2 b.2 with h2 | h2
      · right
        simp [keyGeB, h, h2]
      · left
        simp [keyGeB, h.symm, h2]
    · left
      simp [keyGeB, h]

/-!
## Claim theorems: ratio-table invariants (C1, C5, C10)
-/

lemma sum_map_div {α : Type} (l : List α) (f : α → ℚ) (c : ℚ) :
    (l.map (fun a => f a / c)).sum = (l.map f).sum / c := by
  induction l with
  | nil => simp
  | cons a t ih => simp [ih, add_div]

lemma sum_filter_add_not {α : Type} (p : α → Bool) (f : α → ℚ)
    (l : List α) :
    ((l.filter p).map f).sum + ((l.filter (fun a => !p a)).map f).sum
      = (l.map f).sum := by
  induction l with
  | nil => simp
  | cons a t ih =>
    cases h : p a <;> simp [List.filter_cons, h, ← ih] <;> ring

lemma sum_zero_of_nonneg (l : List ℚ) (h0 : ∀ x ∈ l, 0 ≤ x)
    (hs : l.sum = 0) : ∀ x ∈ l, x = 0 := by
  induction l with
  | nil => simp
  | cons a t ih =>
    have ha : 0 ≤ a := h0 a (by simp)
    have ht : ∀ x ∈ t, 0 ≤ x := fun x hx => h0 x (by simp [hx])
    have hta : 0 ≤ t.sum := List.sum_nonneg ht
    rw [List.sum_cons] at hs
    have ha0 : a = 0 := le_antisymm (by linarith) ha
    have hts : t.sum = 0 := by linarith
    intro x hx
    rcases List.mem_cons.mp hx with rfl | hx2
    · exact ha0
    · exact ih ht hts x hx2

lemma preprocess_haihu_eq (cols : List (String × Cell))
    (rows : List HaihuRow) (hp : preprocess_haihu cols = some rows) :
    filteredPairs cols ≠ [] ∧
    rows = (filteredPairs cols).map
      (mkHaihuRow (filteredPairs cols) (totalWeight cols)) := by
  rw [preprocess_haihu] at hp
  by_cases h : filteredPairs cols = []
  · simp [h] at hp
  · refine ⟨h, ?_⟩
    simp only [h, if_false] at hp
    exact (Option.some.injEq _ _ ▸ hp).symm

lemma rows_filter_group (cols : List (String × Cell)) (g : String) :
    ((filteredPairs cols).map
        (mkHaihuRow (filteredPairs cols) (totalWeight cols))).filter
        (fun r => r.location_group == g) =
      ((filteredPairs cols).filter
        (fun p => (group_map.lookup p.1).getD "" == g)).map
        (mkHaihuRow (filteredPairs cols) (totalWeight cols)) := by
  rw [List.filter_map]
  rfl

/-- C1 (amended).  Provided the filtered raw weights are all
NONNEGATIVE, every non-empty location group of the returned ratio table
satisfies the claim: when the group's raw-weight sum is non-zero the
場所別配賦率 values are finite and sum to exactly 1, and when the
group's weight sum is 0 every member's 場所別配賦率 is 0 with no
division error.  With weights of mixed sign the claim fails: a group
whose weights cancel to 0 gives its members a non-finite (inf)
場所別配賦率, not 0 — see the counterexample theorem. -/
theorem group_ratio_sums_amended (cols : List (String × Cell))
    (hw : ∀ p ∈ cols, 0 ≤ coerceZero p.2)
    (rows : List HaihuRow) (hp : preprocess_haihu cols = some rows)
    (g : String)
    (_hne : rows.filter (fun r => r.location_group == g) ≠ []) :
    (((rows.filter (fun r => r.location_group == g)).map
        (fun r => r.raw_weight)).sum ≠ 0 →
      (((rows.filter (fun r => r.location_group == g)).map
          (fun r => r.group_ratio.getD 0)).sum = 1 ∧
       ∀ r ∈ rows.filter (fun r => r.location_group == g),
         r.group_ratio.isSome)) ∧
    (((rows.filter (fun r => r.location_group == g)).map
        (fun r => r.raw_weight)).sum = 0 →
      ∀ r ∈ rows.filter (fun r => r.location_group == g),
        r.group_ratio = some 0) := by
  obtain ⟨hFne, hrows⟩ := preprocess_haihu_eq cols rows hp
  subst hrows
  rw [rows_filter_group]
  set F := filteredPairs cols with hF
  set T := totalWeight cols with hT
  set G := F.filter (fun p => (group_map.lookup p.1).getD "" == g) with hG
  have hFnn : ∀ q ∈ F, 0 ≤ q.2 := by
    intro q hq
    rw [hF, filteredPairs] at hq
    obtain ⟨hq1, _⟩ := List.mem_filter.mp hq
    obtain ⟨p, hp2, rfl⟩ := List.mem_map.mp hq1
    exact hw p hp2
  have hGnn : ∀ q ∈ G, 0 ≤ q.2 :=
    fun q hq => hFnn q (List.mem_of_mem_filter hq)
  have hrow : ∀ p ∈ G, mkHaihuRow F T p =
      { dept_code := p.1, raw_weight := p.2,
        global_ratio := globalOf T p.2, location_group := g,
        group_ratio := divFillna0 (globalOf T p.2)
          ((G.map (fun q => globalOf T q.2)).sum) } := by
    intro p hpG
    have hpg : ((group_map.lookup p.1).getD "" == g) = true :=
      (List.mem_filter.mp hpG).2
    have hpg2 : (group_map.lookup p.1).getD "" = g := by
      simpa using hpg
    simp only [mkHaihuRow, hpg2, hG]
  have hmapW : (G.map (mkHaihuRow F T)).map (fun r => r.raw_weight) =
      G.map (fun q => q.2) := by
    rw [List.map_map]
    exact List.map_congr_left (fun p hpG => by
      simp only [Function.comp]
      rw [hrow p hpG])
  rw [hmapW]
  constructor
  · -- group raw-weight sum non-zero
    intro hWne
    have hW : 0 < (G.map (fun q => q.2)).sum := by
      have hnn : 0 ≤ (G.map (fun q => q.2)).sum := by
        apply List.sum_nonneg
        intro x hx
        obtain ⟨q, hq, rfl⟩ := List.mem_map.mp hx
        exact hGnn q hq
      exact lt_of_le_of_ne hnn (Ne.symm hWne)
    have hTeq : ((F.filter (fun p =>
          (group_map.lookup p.1).getD "" == g)).map (fun q => q.2)).sum +
        ((F.filter (fun p =>
          !((group_map.lookup p.1).getD "" == g))).map (fun q => q.2)).sum
        = (F.map (fun q => q.2)).sum :=
      sum_filter_add_not _ _ F
    have hrest : 0 ≤ ((F.filter (fun p =>
        !((group_map.lookup p.1).getD "" == g))).map (fun q => q.2)).sum := by
      apply List.sum_nonneg
      intro x hx
      obtain ⟨q, hq, rfl⟩ := List.mem_map.mp hx
      exact hFnn q (List.mem_of_mem_filter hq)
    have hTval : T = (F.map (fun q => q.2)).sum := by
      rw [hT, hF]
      rfl
    have hTpos : 0 < T := by
      rw [hTval, ← hTeq]
      rw [← hG] at *
      linarith
    have hTne : T ≠ 0 := ne_of_gt hTpos
    have hglob : ∀ q : String × ℚ, globalOf T q.2 = q.2 / T := by
      intro q
      rw [globalOf, if_neg hTne]
    have hS : (G.map (fun q => globalOf T q.2)).sum =
        (G.map (fun q => q.2)).sum / T := by
      rw [List.map_congr_left (fun q _ => hglob q), sum_map_div]
    have hSne : (G.map (fun q => globalOf T q.2)).sum ≠ 0 := by
      rw [hS]
      exact div_ne_zero hWne hTne
    constructor
    · rw [List.map_map]
      have hmapr : G.map ((fun r => r.group_ratio.getD 0) ∘ mkHaihuRow F T)
          = G.map (fun p => globalOf T p.2 /
              (G.map (fun q => globalOf T q.2)).sum) := by
        apply List.map_congr_left
        intro p hpG
        simp only [Function.comp, hrow p hpG]
        rw [divFillna0, if_neg hSne]
        rfl
      rw [hmapr, sum_map_div, div_self hSne]
    · intro r hr
      obtain ⟨p, hpG, rfl⟩ := List.mem_map.mp hr
      rw [hrow p hpG]
      simp only [divFillna0, if_neg hSne]
      rfl
  · -- group raw-weight sum zero
    intro hW0
    intro r hr
    obtain ⟨p, hpG, rfl⟩ := List.mem_map.mp hr
    have hall : ∀ q ∈ G, q.2 = 0 := by
      intro q hq
      have := sum_zero_of_nonneg (G.map (fun q => q.2))
        (by intro x hx
            obtain ⟨q2, hq2, rfl⟩ := List.mem_map.mp hx
            exact hGnn q2 hq2) hW0
      exact this q.2 (List.mem_map.mpr ⟨q, hq, rfl⟩)
    have hglob0 : ∀ q ∈ G, globalOf T q.2 = 0 := by
      intro q hq
      rw [hall q hq, globalOf]
      by_cases hTz : T = 0
      · rw [if_pos hTz]
      · rw [if_neg hTz, zero_div]
    have hS0 : (G.map (fun q => globalOf T q.2)).sum = 0 := by
      apply List.sum_eq_zero
      intro x hx
      obtain ⟨q, hq, rfl⟩ := List.mem_map.mp hx
      exact hglob0 q hq
    rw [hrow p hpG]
    simp [divFillna0, hS0, hglob0 p hpG]

end MDA

namespace MDA

/-- Weight row with mixed signs: the Tokyo group's weights cancel. -/
def cexHaihuCols : List (String × Cell) :=
  [("H102200", Cell.num 1), ("H101100", Cell.num (-1)),
   ("S202100", Cell.num 1)]

/-- The table `preprocess_haihu` produces for `cexHaihuCols`. -/
def cexHaihuRows : List HaihuRow :=
  [{ dept_code := "H102200", raw_weight := 1, global_ratio := 1,
     location_group := "本店・東京支店", group_ratio := none },
   { dept_code := "H101100", raw_weight := -1, global_ratio := -1,
     location_group := "本店・東京支店", group_ratio := none },
   { dept_code := "S202100", raw_weight := 1, global_ratio := 1,
     location_group := "札幌支店", group_ratio := some 1 }]

/-- C1 counterexample.  A returned ratio table whose non-empty Tokyo
group has raw-weight sum 0 but whose members' 場所別配賦率 are
non-finite (`x/0 = inf` survives the `fillna(0)`), not 0 — so neither
"Σ group_ratio = 1" nor "weight sum 0 → every member 0" holds for this
group, refuting the claim as stated. -/
theorem group_ratio_zero_weight_group_cex :
    preprocess_haihu cexHaihuCols = some cexHaihuRows ∧
    (cexHaihuRows.filter
        (fun r => r.location_group == "本店・東京支店")) ≠ [] ∧
    ((cexHaihuRows.filter
        (fun r => r.location_group == "本店・東京支店")).map
        (fun r => r.raw_weight)).sum = 0 ∧
    ((cexHaihuRows.filter
        (fun r => r.location_group == "本店・東京支店")).map
        (fun r => r.group_ratio)) = [none, none] := by
  refine ⟨?_, ?_, ?_, ?_⟩
  · simp [preprocess_haihu, filteredPairs, mkHaihuRow, globalOf, divFillna0,
          group_map, coerceZero, List.lookup, cexHaihuCols, cexHaihuRows]
  · simp [cexHaihuRows]
  · simp [cexHaihuRows]
  · simp [cexHaihuRows]

/-- Nonnegative weight row for the C1 witness. -/
def colsW1 : List (String × Cell) :=
  [("H102200", Cell.num 1), ("H101100", Cell.num 3),
   ("S202100", Cell.num 4)]

/-- The table `preprocess_haihu` produces for `colsW1`. -/
def rowsW1 : List HaihuRow :=
  [{ dept_code := "H102200", raw_weight := 1, global_ratio := 1/8,
     location_group := "本店・東京支店", group_ratio := some (1/4) },
   { dept_code := "H101100", raw_weight := 3, global_ratio := 3/8,
     location_group := "本店・東京支店", group_ratio := some (3/4) },
   { dept_code := "S202100", raw_weight := 4, global_ratio := 1/2,
     location_group := "札幌支店", group_ratio := some 1 }]

theorem group_ratio_sums_amended_witness :
    ((rowsW1.filter
        (fun r => r.location_group == "本店・東京支店")).map
        (fun r => r.group_ratio.getD 0)).sum = 1 := by
  have h := group_ratio_sums_amended colsW1
    (by intro p hp; fin_cases hp <;> norm_num [coerceZero])
    rowsW1
    (by simp [preprocess_haihu, filteredPairs, mkHaihuRow, globalOf,
          divFillna0, group_map, coerceZero, List.lookup, colsW1, rowsW1]
        norm_num)
    "本店・東京支店"
    (by simp [rowsW1])
  exact (h.1 (by simp [rowsW1]; norm_num)).1

/-- C5.  When the filtered 業務量割合 sum to 0, `preprocess_haihu`
still returns a table (no division exception — the diagnostic print is
not modelled), with 配賦率 = 0 on every row and 場所別配賦率 = 0 on
every row. -/
theorem zero_total_weight_safe (cols : List (String × Cell))
    (hne : filteredPairs cols ≠ []) (hz : totalWeight cols = 0) :
    (preprocess_haihu cols).isSome = true ∧
    ∀ rows, preprocess_haihu cols = some rows →
      ∀ r ∈ rows, r.global_ratio = 0 ∧ r.group_ratio = some 0 := by
  constructor
  · rw [preprocess_haihu]
    simp [hne]
  · intro rows hp r hr
    obtain ⟨_, hrows⟩ := preprocess_haihu_eq cols rows hp
    subst hrows
    obtain ⟨p, hpF, rfl⟩ := List.mem_map.mp hr
    have hg0 : ∀ w : ℚ, globalOf (totalWeight cols) w = 0 := by
      intro w
      rw [hz, globalOf, if_pos rfl]
    constructor
    · simp [mkHaihuRow, hg0]
    · simp [mkHaihuRow, hg0, divFillna0]

/-- A weight row whose filtered weights cancel to a 0 total. -/
def colsC5W : List (String × Cell) :=
  [("H102200", Cell.num 5), ("S202100", Cell.num (-5)),
   ("XYZ", Cell.num 3)]

theorem zero_total_weight_safe_witness :
    (preprocess_haihu colsC5W).isSome = true := by
  have h := zero_total_weight_safe colsC5W
    (by simp [filteredPairs, group_map, coerceZero, List.lookup, colsC5W])
    (by simp [totalWeight, filteredPairs, group_map, coerceZero,
          List.lookup, colsC5W])
  exact h.1

/-!
## C10: store-wide allocation conserves the net subtotal
-/

lemma sum_global_one (cols : List (String × Cell)) (rows : List HaihuRow)
    (hp : preprocess_haihu cols = some rows)
    (hT : totalWeight cols ≠ 0) :
    (rows.map (fun r => r.global_ratio)).sum = 1 := by
  obtain ⟨hFne, hrows⟩ := preprocess_haihu_eq cols rows hp
  subst hrows
  rw [List.map_map]
  have hcong : (filteredPairs cols).map
      ((fun r => r.global_ratio) ∘
        mkHaihuRow (filteredPairs cols) (totalWeight cols)) =
      (filteredPairs cols).map (fun p => p.2 / totalWeight cols) := by
    apply List.map_congr_left
    intro p hp2
    simp only [Function.comp, mkHaihuRow, globalOf, if_neg hT]
  rw [hcong, sum_map_div]
  have hsum : ((filteredPairs cols).map (fun p => p.2)).sum
      = totalWeight cols := rfl
  rw [hsum, div_self hT]

lemma filter_map_allP {α β : Type} (f : α → β) (p : β → Bool)
    (l : List α) (h : ∀ a, p (f a) = true) :
    (l.map f).filter p = l.map f := by
  induction l with
  | nil => rfl
  | cons a t ih => simp [List.filter_cons, h a, ih]

lemma filter_map_nonP {α β : Type} (f : α → β) (p : β → Bool)
    (l : List α) (h : ∀ a, p (f a) = false) :
    (l.map f).filter p = [] := by
  induction l with
  | nil => rfl
  | cons a t ih => simp [List.filter_cons, h a, ih]

lemma filter_class2_storeClaim (zen : List TRec) (haihu : List HaihuRow)
    (td : Int) (tagA tagL l1 l2 q : String) :
    (storeAllocFromClaim zen haihu td tagA tagL l1 l2).filter
        (fun a => a.class2 == q) =
      if l2 = q then storeAllocFromClaim zen haihu td tagA tagL l1 l2
      else [] := by
  rw [storeAllocFromClaim]
  by_cases hnet : sumNum zen tagA - sumNum zen tagL = 0
  · simp [hnet]
  · simp only [hnet, if_false]
    by_cases hq : l2 = q
    · subst hq
      rw [if_pos rfl]
      exact filter_map_allP _ _ _ (fun a => by simp)
    · rw [if_neg hq]
      exact filter_map_nonP _ _ _ (fun a => by simp [hq])

/-- C10.  Store-wide allocation conserves value: when the ratio table
comes from `preprocess_haihu` on weights with positive total (so the
配賦率 column sums to exactly 1 in exact arithmetic), the amounts of the
allocated rows emitted for each store-wide classification pair sum to
exactly that pair's net subtotal — nothing is created or lost. -/
theorem store_allocation_conserves_net (cols : List (String × Cell))
    (zen : List TRec) (td : Int) (rows : List HaihuRow)
    (hp : preprocess_haihu cols = some rows)
    (hT : 0 < totalWeight cols) (h : allNumTR zen)
    (out : List AllocRecord)
    (hout : execute_allocation zen [] rows td = Except.ok out) :
    ((out.filter (fun a => a.class2 == "運転資本_全店共通")).map
        (fun a => a.amount.getD 0)).sum =
      sumNum zen "運転資本(資産)" - sumNum zen "運転資本(負債)" ∧
    ((out.filter (fun a => a.class2 == "固定資産_全店共通")).map
        (fun a => a.amount.getD 0)).sum =
      sumNum zen "固定資産(資産)" - sumNum zen "固定資産(負債)" := by
  have hTne : totalWeight cols ≠ 0 := ne_of_gt hT
  have hexec : execute_allocation zen [] rows td =
      Except.ok
        (storeAllocFromClaim zen rows td
            "運転資本(資産)" "運転資本(負債)" "運転資本" "運転資本_全店共通" ++
         storeAllocFromClaim zen rows td
            "固定資産(資産)" "固定資産(負債)" "固定資産" "固定資産_全店共通") := by
    rw [execute_allocation]
    simp only [storeBlock_eq_claim _ _ _ _ _ _ _ h]
    simp
  rw [hexec] at hout
  injection hout with hout2
  subst hout2
  rw [List.filter_append, List.filter_append,
      filter_class2_storeClaim, filter_class2_storeClaim,
      filter_class2_storeClaim, filter_class2_storeClaim]
  have hd1 : ("運転資本_全店共通" : String) ≠ "固定資産_全店共通" := by decide
  have hsumU : ((storeAllocFromClaim zen rows td
      "運転資本(資産)" "運転資本(負債)" "運転資本" "運転資本_全店共通").map
        (fun a => a.amount.getD 0)).sum =
      sumNum zen "運転資本(資産)" - sumNum zen "運転資本(負債)" := by
    rw [storeAllocFromClaim]
    by_cases hnet : sumNum zen "運転資本(資産)" - sumNum zen "運転資本(負債)" = 0
    · simp [hnet]
    · simp only [hnet, if_false]
      rw [List.map_map]
      have hmm : rows.map ((fun a => a.amount.getD 0) ∘ (fun h2 =>
          ({ date := td, dept_code := h2.dept_code,
             amount := some ((sumNum zen "運転資本(資産)" -
               sumNum zen "運転資本(負債)") * h2.global_ratio),
             class1 := "運転資本", class2 := "運転資本_全店共通", class3 := "",
             account_code := "", account_name := "" } : AllocRecord))) =
          rows.map (fun h2 => (sumNum zen "運転資本(資産)" -
            sumNum zen "運転資本(負債)") * h2.global_ratio) := rfl
      rw [hmm, List.sum_map_mul_left, sum_global_one cols rows hp hTne,
          mul_one]
  have hsumK : ((storeAllocFromClaim zen rows td
      "固定資産(資産)" "固定資産(負債)" "固定資産" "固定資産_全店共通").map
        (fun a => a.amount.getD 0)).sum =
      sumNum zen "固定資産(資産)" - sumNum zen "固定資産(負債)" := by
    rw [storeAllocFromClaim]
    by_cases hnet : sumNum zen "固定資産(資産)" - sumNum zen "固定資産(負債)" = 0
    · simp [hnet]
    · simp only [hnet, if_false]
      rw [List.map_map]
      have hmm : rows.map ((fun a => a.amount.getD 0) ∘ (fun h2 =>
          ({ date := td, dept_code := h2.dept_code,
             amount := some ((sumNum zen "固定資産(資産)" -
               sumNum zen "固定資産(負債)") * h2.global_ratio),
             class1 := "固定資産", class2 := "固定資産_全店共通", class3 := "",
             account_code := "", account_name := "" } : AllocRecord))) =
          rows.map (fun h2 => (sumNum zen "固定資産(資産)" -
            sumNum zen "固定資産(負債)") * h2.global_ratio) := rfl
      rw [hmm, List.sum_map_mul_left, sum_global_one cols rows hp hTne,
          mul_one]
  constructor
  · rw [if_pos rfl, if_neg hd1.symm]
    simpa using hsumU
  · rw [if_pos rfl, if_neg hd1]
    simpa using hsumK

end MDA

namespace MDA

/-- Weight row with positive total (6 + 4 = 10) for the C10 witness. -/
def colsW10 : List (String × Cell) :=
  [("H102200", Cell.num 6), ("S202100", Cell.num 4)]

/-- The table `preprocess_haihu` produces for `colsW10`:
配賦率 0.6 / 0.4. -/
def rowsW10 : List HaihuRow :=
  [{ dept_code := "H102200", raw_weight := 6, global_ratio := 3/5,
     location_group := "本店・東京支店", group_ratio := some 1 },
   { dept_code := "S202100", raw_weight := 4, global_ratio := 2/5,
     location_group := "札幌支店", group_ratio := some 1 }]

/-- The engine's output on `zenScenA` with `rowsW10`:
480 + 320 = 800 = 1000 − 200. -/
def outW10 : List AllocRecord :=
  [{ date := 0, dept_code := "H102200", amount := some 480,
     class1 := "運転資本", class2 := "運転資本_全店共通", class3 := "",
     account_code := "", account_name := "" },
   { date := 0, dept_code := "S202100", amount := some 320,
     class1 := "運転資本", class2 := "運転資本_全店共通", class3 := "",
     account_code := "", account_name := "" }]

theorem store_allocation_conserves_net_witness :
    ((outW10.filter (fun a => a.class2 == "運転資本_全店共通")).map
        (fun a => a.amount.getD 0)).sum =
      sumNum zenScenA "運転資本(資産)" - sumNum zenScenA "運転資本(負債)" :=
  (store_allocation_conserves_net colsW10 zenScenA 0 rowsW10
    (by simp [preprocess_haihu, filteredPairs, mkHaihuRow, globalOf,
          divFillna0, group_map, coerceZero, List.lookup, colsW10, rowsW10]
        norm_num)
    (by simp [totalWeight, filteredPairs, group_map, coerceZero,
          List.lookup, colsW10]
        norm_num)
    (by intro r hr
        fin_cases hr <;> simp [cellNum?, zenScenA])
    outW10
    (by simp [execute_allocation, storeBlock, pairNet, sumCells, cellNum?,
          zenScenA, rowsW10, outW10]
        norm_num)).1

end MDA

namespace MDA

/-- A concrete merged record set with one record per partition. -/
def appW : List AppRec :=
  [{ dept_code := "A900000", location := some "全店共通", amount := Cell.num 1 },
   { dept_code := "H100100", location := some "場所共通", amount := Cell.num 2 },
   { dept_code := "H102200", location := none, amount := Cell.num 3 }]

theorem partition_complete_witness :
    ((splitZen appW).length + (splitBasho appW).length +
        (splitMain appW).length = appW.length) ∧
    ({ dept_code := "A900000", location := some "全店共通",
       amount := Cell.num 1 } : AppRec) ∈ splitZen appW := by
  refine ⟨(partition_complete appW).1, ?_⟩
  have h := (partition_complete appW).2
    { dept_code := "A900000", location := some "全店共通",
      amount := Cell.num 1 } (by simp [appW])
  rcases h with ⟨h1, _, _⟩ | ⟨h1, _, _⟩ | ⟨h1, _, _⟩
  · exact h1
  · exact absurd (by simp [splitZen, appW, isZenKyoutuu] :
      ({ dept_code := "A900000", location := some "全店共通",
         amount := Cell.num 1 } : AppRec) ∈ splitZen appW) h1
  · exact absurd (by simp [splitZen, appW, isZenKyoutuu] :
      ({ dept_code := "A900000", location := some "全店共通",
         amount := Cell.num 1 } : AppRec) ∈ splitZen appW) h1

/-- A concrete ledger extract: two rows share the latest 計上日, the
second has the larger 行, and a third row has an unparseable 計上日. -/
def ledW : List LedgerRow :=
  [{ date := some 10, rowNum := some 1, dept_code := "H101210",
     dept_name := "原料部", amount := Cell.num 1 },
   { date := some 10, rowNum := some 2, dept_code := "H101310",
     dept_name := "海外部", amount := Cell.num 2 },
   { date := none, rowNum := some 9, dept_code := "H104100",
     dept_name := "他部", amount := Cell.num 3 }]

theorem latest_record_first_max_witness :
    getLatestRecord ledW =
      [{ date := some 10, rowNum := some 2, dept_code := "H101310",
         dept_name := "海外部", amount := Cell.num 2 }] := by
  rw [latest_record_first_max.1 ledW]
  simp [ledW, validLedger, firstMaxKey, ledgerKey, keyGtB]

end MDA
